import Mathlib

/-!
Verification development for the MongoDB storage adapter (package `mongo`,
file `mongo.go`): a shallow embedding of the item translator, the
optimistic-concurrency guard on Update/Delete, the windowed Clear, and the
Find/Count engine, together with theorems settling the specification claims.

The external document store (the MongoDB driver) is modelled as a list of
stored documents; a conditional write reports a no-matching-document error
when its filter matches nothing, and a single-document read reports the same
error when no document matches, following the store-facing protocol the
specification describes. The caller context is modelled by a Boolean flag
(`true` = already cancelled/expired); store round-trips themselves succeed
regardless of that flag, so that the adapter code alone decides whether a
cancellation outcome is reported.
-/

/-- Document identifiers: an ObjectID carrying its hex rendering, or a
caller-assigned string or integer key (the Go code keeps the identifier as an
opaque `interface` value). -/
inductive MID where
  | oid (hex : String)
  | strv (s : String)
  | intv (n : Int)
deriving DecidableEq, Repr

/-- Rendering of an identifier as text: `Hex()` for an ObjectID, the default
formatting for the other kinds (`fmt.Sprint` in the source). -/
def idRender : MID → String
  | .oid h => h
  | .strv s => s
  | .intv n => toString n

/-- Payload field values. -/
inductive MVal where
  | vid (i : MID)
  | vstr (s : String)
  | vint (n : Int)
deriving DecidableEq, Repr

/-- Payload mapping: field name to optional value (a Go map read). -/
abbrev PMap : Type := String → Option MVal

/-- Resource item (`resource.Item`): identifier, version tag (ETag),
last-modified timestamp and payload. -/
structure Item where
  ID : MID
  ETag : String
  Updated : Nat
  Payload : PMap

/-- BSON representation of a resource item (`mongoItem` in the source). The
payload may be nil (`none`) when the document was just fetched from the
database and has no extra fields. -/
structure mongoItem where
  ID : MID
  ETag : String
  Updated : Nat
  Payload : Option PMap

/-- Converts a `resource.Item` into a `mongoItem`: the `id` key is filtered
out of the payload so it is not stored twice (source lines 26-40). -/
def newMongoItem (i : Item) : mongoItem :=
  { ID := i.ID
    ETag := i.ETag
    Updated := i.Updated
    Payload := some fun k => if k = "id" then none else i.Payload k }

/-- Converts a `mongoItem` back into a `resource.Item`: a nil payload is
normalized to an empty map, the id is re-inserted under the `id` key, and an
empty ETag is replaced by the synthetic tag `p-` followed by the rendered
identifier (source lines 43-66). -/
def newItem (i : mongoItem) : Item :=
  let p0 : PMap := i.Payload.getD fun _ => none
  let p : PMap := fun k => if k = "id" then some (.vid i.ID) else p0 k
  let etag := if i.ETag = "" then "p-" ++ idRender i.ID else i.ETag
  { ID := i.ID, ETag := etag, Updated := i.Updated, Payload := p }

/-- Adapter errors, together with the store-level error values the adapter
branches on. `errStore` carries an opaque lower-level failure. -/
inductive MErr where
  | errNotFound
  | errConflict
  | errCanceled
  | errNoDocuments
  | errStore (s : String)
deriving DecidableEq, Repr

/-- Context error: `ctx.Err()` is non-nil exactly when the context is already
cancelled or expired. -/
def ctxErr (canceled : Bool) : Option MErr :=
  if canceled then some .errCanceled else none

/-- Stored document in the collection. The version field may be legitimately
absent (`none`), which is distinct from an empty-string version. -/
structure StoredDoc where
  ID : MID
  ETag : Option String
  Updated : Nat
  Payload : Option PMap

/-- Encoding of a `mongoItem` as a stored document: every field of the BSON
struct is marshalled, so the version field is present (possibly empty). -/
def encodeDoc (m : mongoItem) : StoredDoc :=
  { ID := m.ID, ETag := some m.ETag, Updated := m.Updated, Payload := m.Payload }

/-- Decoding of a stored document into the BSON struct: an absent version
field decodes to the empty string. -/
def decodeDoc (d : StoredDoc) : mongoItem :=
  { ID := d.ID, ETag := d.ETag.getD "", Updated := d.Updated, Payload := d.Payload }

/-- Version condition of the conditional selector built by Update and Delete
(source lines 109-116 and 144-151): a caller tag carrying the reserved `p-`
marker asserts the stored version field is absent; any other tag asserts
equality with the stored version field. The `strings.HasPrefix` test is
written on the character list so that it evaluates by reduction. -/
def selMatch (tag : String) (d : StoredDoc) : Bool :=
  if "p-".data.isPrefixOf tag.data then d.ETag = none else d.ETag = some tag

/-- The collection. -/
abbrev Store : Type := List StoredDoc

/-- Pagination window of the abstract query (`query.Window`): offset (skip)
and limit (maximum number of items). -/
structure Window where
  Offset : Nat
  Limit : Nat
deriving DecidableEq, Repr

/-- Modelled from the spec: the abstract query consumed by the adapter. The
query-translation code (`getQuery`, `getSort`) is part of this repository but
outside the provided excerpt, so the translation is modelled per the
specification as a pure deterministic mapping that may fail: `valid` records
whether translation succeeds, `pred` is the translated store-native filter,
and `key` is the translated sort key. -/
structure Query where
  valid : Bool
  pred : StoredDoc → Bool
  key : StoredDoc → Int
  Window : Option Window

/-- Modelled from the spec: `getQuery` renders the abstract filter tree into
a store-native predicate, failing on an untranslatable query. -/
def getQuery (q : Query) : Except MErr (StoredDoc → Bool) :=
  if q.valid then .ok q.pred else .error (.errStore "translate")

/-- Insertion of a document into a list sorted by the given key. -/
def insertSorted (key : StoredDoc → Int) (x : StoredDoc) :
    List StoredDoc → List StoredDoc
  | [] => [x]
  | y :: ys =>
    if key x ≤ key y then x :: y :: ys else y :: insertSorted key x ys

/-- Modelled from the spec: `getSort` renders the sort directives; the store
orders matching documents by the resulting key (insertion sort, ascending). -/
def sortByKey (key : StoredDoc → Int) (l : List StoredDoc) : List StoredDoc :=
  l.foldr (insertSorted key) []

/-- Modelled from the spec: `applyWindow` renders the pagination window into
the store-native skip/limit controls: skip `Offset` documents, then return at
most `Limit`. -/
def applyWindowL (w : Option Window) (l : List StoredDoc) : List StoredDoc :=
  match w with
  | none => l
  | some w => (l.drop w.Offset).take w.Limit

/-- Result of the sorted, filtered, windowed store read issued by `c.Find`. -/
def storeFind (st : Store) (p : StoredDoc → Bool) (key : StoredDoc → Int)
    (w : Option Window) : List StoredDoc :=
  applyWindowL w (sortByKey key (st.filter p))

/-- Replace the first list element satisfying the predicate. -/
def replaceFirst (p : StoredDoc → Bool) (f : StoredDoc → StoredDoc) :
    List StoredDoc → List StoredDoc
  | [] => []
  | x :: xs => if p x then f x :: xs else x :: replaceFirst p f xs

/-- Store-level `$set` of a full `mongoItem` onto a stored document: the
dedicated fields are overwritten and the inlined payload fields are merged
over the existing ones. -/
def setDoc (m : mongoItem) (d : StoredDoc) : StoredDoc :=
  let newP : PMap := m.Payload.getD fun _ => none
  let oldP : PMap := d.Payload.getD fun _ => none
  { ID := d.ID
    ETag := some m.ETag
    Updated := m.Updated
    Payload := some fun k => (newP k).or (oldP k) }

/-- Result of a listing (`resource.ItemList`): total count (or -1 when
unknown), the effective limit applied, and the items. -/
structure ItemList where
  Total : Int
  Limit : Int
  Items : List Item

namespace Handler

/-- Inserts new items in the collection (source lines 82-100): each item is
converted with `newMongoItem`, the batch is written with `InsertMany` (a
duplicate identifier under the unique id index fails the batch and is mapped
to the conflict error), and a non-nil context error is returned in preference
to the store outcome. `hfail` models a handler-resolution failure. -/
def Insert (canceled hfail : Bool) (st : Store) (items : List Item) :
    Store × Option MErr :=
  let mItems := items.map newMongoItem
  if hfail then (st, some (.errStore "handler")) else
  let dup := mItems.any fun m => st.any fun d => decide (d.ID = m.ID)
  let newSt := if dup then st else st ++ mItems.map encodeDoc
  let err : Option MErr := if dup then some .errConflict else none
  match ctxErr canceled with
  | some e => (newSt, some e)
  | none => (newSt, err)

/-- Replaces an item by a new one (source lines 103-136). The conditional
selector (identifier plus version condition, lines 109-116) is built by the
source but the write itself is `UpdateByID`: the filter the store receives is
the identifier alone (line 117). When the store reports no matching document,
a disambiguating read by identifier alone decides between not-found,
cancellation and conflict (lines 120-134); because the write filter is also
identifier-only, that read necessarily finds nothing here, so only the
not-found branch is reachable. -/
def Update (canceled hfail : Bool) (st : Store) (item orig : Item) :
    Store × Option MErr :=
  let mItem := newMongoItem item
  if hfail then (st, some (.errStore "handler")) else
  if st.any fun d => decide (d.ID = orig.ID) then
    (replaceFirst (fun d => decide (d.ID = orig.ID)) (setDoc mItem) st, none)
  else
    match st.find? fun d => decide (d.ID = orig.ID) with
    | none => (st, some .errNotFound)
    | some _ => if canceled then (st, some .errCanceled) else (st, some .errConflict)

/-- Deletes an item (source lines 139-167). Unlike Update, the conditional
selector built on lines 144-151 (identifier plus version condition) is the
filter actually passed to `DeleteOne` (line 152). When the store reports no
matching document, the disambiguating read by identifier decides between
not-found, cancellation and conflict (lines 153-165). -/
def Delete (canceled hfail : Bool) (st : Store) (item : Item) :
    Store × Option MErr :=
  if hfail then (st, some (.errStore "handler")) else
  let sel := fun d => decide (d.ID = item.ID) && selMatch item.ETag d
  if st.any sel then (st.eraseP sel, none)
  else
    match st.find? fun d => decide (d.ID = item.ID) with
    | none => (st, some .errNotFound)
    | some _ => if canceled then (st, some .errCanceled) else (st, some .errConflict)

/-- Final step of Clear (source lines 210-219): a nil store error is replaced
by the context error; a nil store result yields count 0, otherwise the
reported deletion count is returned alongside whatever error is present. -/
def clearFinish (canceled : Bool) (info : Option Nat) (err : Option MErr) :
    Nat × Option MErr :=
  let err2 := match err with
    | none => ctxErr canceled
    | some e => some e
  match info with
  | none => (0, err2)
  | some n => (n, err2)

/-- Clears all items matching the query (source lines 174-220). With no
window the translated filter goes directly to the bulk delete; with a window
a pre-query retrieves the sorted, windowed list of identifiers under the same
filter, and the bulk delete is filtered by membership in exactly that
identifier list. The result goes through `clearFinish`. -/
def Clear (canceled hfail : Bool) (st : Store) (q : Query) :
    Store × (Nat × Option MErr) :=
  match getQuery q with
  | .error e => (st, 0, some e)
  | .ok qry =>
    if hfail then (st, 0, some (.errStore "handler")) else
    let qry2 : StoredDoc → Bool :=
      match q.Window with
      | some _ =>
        let ids := (storeFind st qry q.key q.Window).map (·.ID)
        fun d => decide (d.ID ∈ ids)
      | none => qry
    let removed := st.filter qry2
    (st.filter fun d => !(qry2 d), clearFinish canceled (some removed.length) none)

/-- Counts the items matching the query (source lines 291-302): -1 with the
error on query-translation or handler-resolution failure; otherwise the count
reported by `CountDocuments` is forwarded together with its error (on a
store-level failure the driver reports a zero count, which the source
converts and returns unchanged). The context is threaded but never
consulted. `countFail` models a store-level count failure. -/
def Count (canceled hfail : Bool) (countFail : Option MErr) (st : Store)
    (q : Query) : Int × Option MErr :=
  match getQuery q with
  | .error e => (-1, some e)
  | .ok qry =>
    if hfail then (-1, some (.errStore "handler")) else
    match countFail with
    | some e => (0, some e)
    | none => (((st.filter qry).length : Int), none)

/-- Effective limit recorded in a Find result (source lines 252-255): the
window limit when a window is present, -1 otherwise. -/
def limitOf : Option Window → Int
  | none => -1
  | some w => (w.Limit : Int)

/-- Total-count inference of Find (source lines 257-286): the total starts at
-1; when no limit was requested or the page is short, it becomes
offset + length (positive offset, non-empty page), stays -1 (positive offset,
empty page), or becomes the page length (no positive offset). -/
def inferTotal (ow : Option Window) (len : Nat) : Int :=
  if limitOf ow < 0 ∨ (len : Int) < limitOf ow then
    match ow with
    | some w =>
      if 0 < w.Offset then
        (if 0 < len then (w.Offset : Int) + (len : Int) else -1)
      else (len : Int)
    | none => (len : Int)
  else -1

/-- Main read path of Find (source lines 239-287): translate the filter, sort
and window, read the matching documents, translate each back into an item,
and record the inferred total and the effective limit. -/
def findMain (canceled hfail : Bool) (st : Store) (q : Query) :
    Except MErr ItemList :=
  match getQuery q with
  | .error e => .error e
  | .ok qry =>
    if hfail then .error (.errStore "handler") else
    let docs := storeFind st qry q.key q.Window
    let items := docs.map fun d => newItem (decodeDoc d)
    .ok { Total := inferTotal q.Window items.length
          Limit := limitOf q.Window
          Items := items }

/-- Finds items matching the query (source lines 223-288): a window with
limit 0 skips the main read path, issues only a Count and returns zero items
with that total; every other query goes through `findMain`. -/
def Find (canceled hfail : Bool) (st : Store) (q : Query) :
    Except MErr ItemList :=
  match q.Window with
  | some w =>
    if w.Limit = 0 then
      match Count canceled hfail none st q with
      | (_, some e) => .error e
      | (n, none) => .ok { Total := n, Limit := (0 : Int), Items := [] }
    else findMain canceled hfail st q
  | none => findMain canceled hfail st q

end Handler

/-- Modelled from the claim wording of C2: a Delete whose conditional write
is issued using only the identifier as the store-level filter (the version
condition not embedded in the write filter), followed by the same
disambiguating read. Compared against `Delete` to settle C2. -/
def DeleteIdOnly (canceled hfail : Bool) (st : Store) (item : Item) :
    Store × Option MErr :=
  if hfail then (st, some (.errStore "handler")) else
  let sel := fun d => decide (d.ID = item.ID)
  if st.any sel then (st.eraseP sel, none)
  else
    match st.find? fun d => decide (d.ID = item.ID) with
    | none => (st, some .errNotFound)
    | some _ => if canceled then (st, some .errCanceled) else (st, some .errConflict)

/-- Empty payload. -/
def emptyP : PMap := fun _ => none

/-- Sample item with a real version tag and one payload field. -/
def sampleItem : Item :=
  { ID := .intv 7, ETag := "v1", Updated := 5
    Payload := fun k =>
      if k = "id" then some (.vid (.intv 7))
      else if k = "name" then some (.vstr "bob") else none }

/-- Stored document with identifier 1 and version tag B. -/
def docB : StoredDoc := { ID := .intv 1, ETag := some "B", Updated := 0, Payload := none }

/-- Caller item carrying the stale version tag A for identifier 1. -/
def itemA : Item := { ID := .intv 1, ETag := "A", Updated := 1, Payload := emptyP }

/-- Replacement item with version tag C for identifier 1. -/
def itemC : Item := { ID := .intv 1, ETag := "C", Updated := 2, Payload := emptyP }

/-- Query whose translation succeeds and matches every document, no window. -/
def qAll : Query :=
  { valid := true, pred := fun _ => true, key := fun d => (d.Updated : Int), Window := none }

/-- Query whose translation fails. -/
def qBad : Query :=
  { valid := false, pred := fun _ => true, key := fun _ => 0, Window := none }

/-- Second stored document, identifier 2. -/
def docB2 : StoredDoc := { ID := .intv 2, ETag := some "B2", Updated := 3, Payload := none }

/-- Stored document with integer identifier n, sorted by timestamp n. -/
def mkDoc (n : Nat) : StoredDoc :=
  { ID := .intv n, ETag := some "t", Updated := n, Payload := none }

/-- Store of ten documents with identifiers 0 to 9. -/
def st10 : Store := (List.range 10).map mkDoc

/-- All-matching query sorted by timestamp with window offset 2, limit 3. -/
def q23 : Query :=
  { valid := true, pred := fun _ => true, key := fun d => (d.Updated : Int)
    Window := some ⟨2, 3⟩ }

/-- All-matching query sorted by timestamp with window offset 8, limit 5. -/
def q85 : Query :=
  { valid := true, pred := fun _ => true, key := fun d => (d.Updated : Int)
    Window := some ⟨8, 5⟩ }

/-- All-matching query sorted by timestamp with window offset 0, limit 4. -/
def q04 : Query :=
  { valid := true, pred := fun _ => true, key := fun d => (d.Updated : Int)
    Window := some ⟨0, 4⟩ }

/-- All-matching query with window offset 5, limit 0. -/
def qL0 : Query :=
  { valid := true, pred := fun _ => true, key := fun d => (d.Updated : Int)
    Window := some ⟨5, 0⟩ }

/-- Value carried by a successful Find result (dummy on the error side). -/
def findVal (c hf : Bool) (st : Store) (q : Query) : ItemList :=
  match Handler.Find c hf st q with
  | .ok L => L
  | .error _ => { Total := -2, Limit := -2, Items := [] }

/-- Claim C1 (evaluation at the failing input): an Update whose caller tag A
is stale for the stored document (version B, same identifier) does not report
conflict — the identifier-only write filter matches the document, the update
succeeds, the stored version is silently overwritten with the new tag, and
the returned error is nil. The selector built on source lines 109-116 would
have rejected the document, but it is never passed to the write. -/
theorem C1_update_stale_overwrites :
    selMatch itemA.ETag docB = false ∧
    (Handler.Update false false [docB] itemC itemA).2 = none ∧
    (Handler.Update false false [docB] itemC itemA).1.map StoredDoc.ETag = [some "C"] := by
  decide

/-- Claim C2 (counterexample): Delete does not issue its conditional write
with only the identifier as the store-level filter. On a store holding the
document with identifier 1 and version B, a Delete with the stale tag A
removes nothing and reports conflict, whereas the identifier-only delete the
claim describes would remove the document and succeed. -/
theorem C2_counterexample :
    (Handler.Delete false false [docB] itemA).2 = some .errConflict ∧
    (Handler.Delete false false [docB] itemA).1 = [docB] ∧
    (DeleteIdOnly false false [docB] itemA).2 = none ∧
    (DeleteIdOnly false false [docB] itemA).1 = [] := by
  refine ⟨by decide, rfl, by decide, rfl⟩

/-- Claim C2 (amended): only Update issues its conditional write with the
identifier alone as the store-level filter — it succeeds whenever a document
with the identifier exists, regardless of the version condition — while
Delete embeds the version condition in its write filter: it removes nothing
whenever no document satisfies identifier plus version condition, even when a
document with the identifier exists. -/
theorem C2_amended (st : Store) (item orig : Item) :
    ((st.any fun d => decide (d.ID = orig.ID)) = true →
      (Handler.Update false false st item orig).2 = none) ∧
    ((st.any fun d => decide (d.ID = item.ID) && selMatch item.ETag d) = false →
      (Handler.Delete false false st item).1 = st) := by
  constructor
  · intro h
    simp [Handler.Update, h]
  · intro h
    simp only [Handler.Delete, Bool.false_eq_true, if_false, h]
    cases st.find? fun d => decide (d.ID = item.ID) with
    | none => rfl
    | some d => cases (false : Bool) <;> simp

/-- Witness for C2 (amended) at a concrete input: the store holds the
document with identifier 1 and version B; the Update write succeeds although
the caller tag is stale, and the Delete write removes nothing because the
version condition is part of its filter. -/
theorem C2_witness :
    (Handler.Update false false [docB] itemC itemA).2 = none ∧
    (Handler.Delete false false [docB] itemA).1 = [docB] :=
  ⟨(C2_amended [docB] itemC itemA).1 (by decide),
   (C2_amended [docB] itemA itemA).2 (by decide)⟩

/-- Claim C4: translating an item to a document and back round-trips the
identifier, timestamp, non-empty version tag and all payload fields other
than `id`; the `id` key is stripped from the persisted payload and
re-inserted on read with the item identifier; an empty version tag yields the
synthetic tag `p-` followed by the rendered identifier; and a nil document
payload is normalized to an empty mapping before the identifier is
re-inserted. -/
theorem C4_roundtrip (I : Item) :
    (newItem (newMongoItem I)).ID = I.ID ∧
    (newItem (newMongoItem I)).Updated = I.Updated ∧
    (I.ETag ≠ "" → (newItem (newMongoItem I)).ETag = I.ETag) ∧
    (I.ETag = "" → (newItem (newMongoItem I)).ETag = "p-" ++ idRender I.ID) ∧
    (∀ k, k ≠ "id" → (newItem (newMongoItem I)).Payload k = I.Payload k) ∧
    (newItem (newMongoItem I)).Payload "id" = some (.vid I.ID) ∧
    (∀ p, (newMongoItem I).Payload = some p → p "id" = none) ∧
    (∀ m : mongoItem, m.Payload = none →
      ∀ k, (newItem m).Payload k = if k = "id" then some (.vid m.ID) else none) := by
  refine ⟨rfl, rfl, ?_, ?_, ?_, ?_, ?_, ?_⟩
  · intro h
    simp [newItem, newMongoItem, h]
  · intro h
    simp [newItem, newMongoItem, h]
  · intro k hk
    simp [newItem, newMongoItem, hk]
  · simp [newItem, newMongoItem]
  · intro p hp
    simp only [newMongoItem, Option.some.injEq] at hp
    rw [← hp]
    simp
  · intro m hm k
    simp [newItem, hm]

/-- Witness for C4 at the sample item: the version tag and a payload field
survive the round-trip. -/
theorem C4_witness :
    (newItem (newMongoItem sampleItem)).ETag = "v1" ∧
    (newItem (newMongoItem sampleItem)).Payload "name" = some (.vstr "bob") :=
  ⟨(C4_roundtrip sampleItem).2.2.1 (by decide),
   (C4_roundtrip sampleItem).2.2.2.2.1 "name" (by decide)⟩

/-- Claim C3 (counterexample): Count invoked with an already-cancelled
context never consults the context; with a one-document store it returns the
count 1 with a nil error instead of a cancellation outcome. -/
theorem C3_counterexample :
    Handler.Count true false none [docB] qAll = (1, none) := by
  decide

/-- Claim C3 (amended): with an already-cancelled context and succeeding
store calls, Insert and Clear return the cancellation outcome, and Delete
does so only on its disambiguation path (version condition unmatched while a
document with the identifier exists); the remaining operations do not
guarantee a cancellation outcome. -/
theorem C3_amended (st : Store) (items : List Item) (q : Query) (item : Item)
    (hv : q.valid = true) :
    (Handler.Insert true false st items).2 = some .errCanceled ∧
    (Handler.Clear true false st q).2.2 = some .errCanceled ∧
    ((st.any fun d => decide (d.ID = item.ID) && selMatch item.ETag d) = false →
      (st.find? fun d => decide (d.ID = item.ID)).isSome = true →
      (Handler.Delete true false st item).2 = some .errCanceled) := by
  refine ⟨?_, ?_, ?_⟩
  · simp [Handler.Insert, ctxErr]
  · simp [Handler.Clear, getQuery, hv, Handler.clearFinish, ctxErr]
  · intro h hf
    simp only [Handler.Delete, Bool.false_eq_true, if_false, h]
    cases hfd : st.find? fun d => decide (d.ID = item.ID) with
    | none => rw [hfd] at hf; simp at hf
    | some d => simp

/-- Witness for C3 (amended): on a one-document store with a cancelled
context, Insert reports cancellation, and so does a Delete whose stale tag
sends it to the disambiguating read. -/
theorem C3_witness :
    (Handler.Insert true false [docB] [sampleItem]).2 = some .errCanceled ∧
    (Handler.Delete true false [docB] itemA).2 = some .errCanceled :=
  ⟨(C3_amended [docB] [sampleItem] qAll itemA rfl).1,
   (C3_amended [docB] [sampleItem] qAll itemA rfl).2.2 (by decide) (by decide)⟩

/-- Claim C7: the final step of Clear returns the store-reported deletion
count together with the store error when both are present, and a cancelled
context turns a successful bulk delete into the count paired with the
cancellation error (shown on the windowless path of the full operation). -/
theorem C7_partial_failure :
    (∀ (c : Bool) (n : Nat) (e : MErr), Handler.clearFinish c (some n) (some e) = (n, some e)) ∧
    (∀ (st : Store) (q : Query), q.valid = true → q.Window = none →
      (Handler.Clear true false st q).2 = ((st.filter q.pred).length, some .errCanceled)) := by
  constructor
  · intro c n e
    rfl
  · intro st q hv hw
    simp [Handler.Clear, getQuery, hv, hw, Handler.clearFinish, ctxErr]

/-- Witness for C7: a partially-failed bulk delete that removed 4 documents
returns count 4 with the store error, and a cancelled Clear over a
two-document store returns count 2 with the cancellation error. -/
theorem C7_witness :
    Handler.clearFinish false (some 4) (some (.errStore "io")) = (4, some (.errStore "io")) ∧
    (Handler.Clear true false [docB, docB2] qAll).2 = (2, some .errCanceled) := by
  refine ⟨C7_partial_failure.1 false 4 (.errStore "io"), ?_⟩
  rw [C7_partial_failure.2 [docB, docB2] qAll rfl rfl]
  decide

/-- Claim C9 (counterexample): on a store-level count failure, Count forwards
the store-reported zero count together with the error — it does not return
-1. -/
theorem C9_counterexample :
    Handler.Count false false (some (.errStore "io")) [docB] qAll
      = (0, some (.errStore "io")) := by
  decide

/-- Claim C9 (amended): Count returns -1 together with the error on a
query-translation or handler-resolution failure; on a store-level count
failure it forwards the store-reported count (zero) together with the error;
when no failure occurs it returns the exact number of matching documents. -/
theorem C9_amended (st : Store) (q : Query) (e : MErr) :
    (q.valid = false → ∃ e1, Handler.Count false false none st q = (-1, some e1)) ∧
    (q.valid = true → ∃ e2, Handler.Count false true none st q = (-1, some e2)) ∧
    (q.valid = true → Handler.Count false false (some e) st q = (0, some e)) ∧
    (q.valid = true →
      Handler.Count false false none st q = (((st.filter q.pred).length : Int), none)) := by
  refine ⟨?_, ?_, ?_, ?_⟩
  · intro hv
    exact ⟨.errStore "translate", by simp [Handler.Count, getQuery, hv]⟩
  · intro hv
    exact ⟨.errStore "handler", by simp [Handler.Count, getQuery, hv]⟩
  · intro hv
    simp [Handler.Count, getQuery, hv]
  · intro hv
    simp [Handler.Count, getQuery, hv]

/-- Witness for C9 (amended): an untranslatable query yields -1 with an
error; a successful Count over a one-document store yields exactly 1. -/
theorem C9_witness :
    (∃ e1, Handler.Count false false none [docB] qBad = (-1, some e1)) ∧
    Handler.Count false false none [docB] qAll = (1, none) := by
  refine ⟨(C9_amended [docB] qBad (.errStore "io")).1 rfl, ?_⟩
  rw [(C9_amended [docB] qAll (.errStore "io")).2.2.2 rfl]
  decide

/-- Inversion of the main read path: a successful result records the inferred
total and the effective limit for its own item count. -/
theorem findMain_ok_inv (c hf : Bool) (st : Store) (q : Query) (L : ItemList)
    (hok : Handler.findMain c hf st q = .ok L) :
    L.Total = Handler.inferTotal q.Window L.Items.length ∧
      L.Limit = Handler.limitOf q.Window := by
  unfold Handler.findMain at hok
  split at hok
  · exact absurd hok (by simp)
  · split at hok
    · exact absurd hok (by simp)
    · simp only [Except.ok.injEq] at hok
      subst hok
      exact ⟨rfl, rfl⟩

/-- Total inference with no window: the page length. -/
theorem inferTotal_none (len : Nat) :
    Handler.inferTotal none len = (len : Int) := by
  simp [Handler.inferTotal, Handler.limitOf]

/-- Total inference on a full page: unknown. -/
theorem inferTotal_full (w : Window) (len : Nat) (h : len = w.Limit)
    (h0 : 0 < w.Limit) : Handler.inferTotal (some w) len = -1 := by
  have hc : ¬(Handler.limitOf (some w) < 0 ∨
      ((len : Int) < Handler.limitOf (some w))) := by
    simp only [Handler.limitOf]
    omega
  simp [Handler.inferTotal, hc]

/-- Total inference on a short page with positive offset and at least one
item: offset plus page length. -/
theorem inferTotal_short_off (w : Window) (len : Nat) (hlt : len < w.Limit)
    (hoff : 0 < w.Offset) (hpos : 0 < len) :
    Handler.inferTotal (some w) len = (w.Offset : Int) + (len : Int) := by
  have hc : (Handler.limitOf (some w) < 0 ∨
      ((len : Int) < Handler.limitOf (some w))) := by
    simp only [Handler.limitOf]
    omega
  simp [Handler.inferTotal, hc, hoff, hpos]

/-- Total inference on an empty page with positive offset: unknown. -/
theorem inferTotal_short_empty (w : Window) (h0 : 0 < w.Limit)
    (hoff : 0 < w.Offset) : Handler.inferTotal (some w) 0 = -1 := by
  have hc : (Handler.limitOf (some w) < 0 ∨
      ((0 : Int) < Handler.limitOf (some w))) := by
    simp only [Handler.limitOf]
    omega
  simp [Handler.inferTotal, hc, hoff]

/-- Total inference on a short page without positive offset: page length. -/
theorem inferTotal_short_nooff (w : Window) (len : Nat) (hlt : len < w.Limit)
    (hoff : w.Offset = 0) : Handler.inferTotal (some w) len = (len : Int) := by
  have hc : (Handler.limitOf (some w) < 0 ∨
      ((len : Int) < Handler.limitOf (some w))) := by
    simp only [Handler.limitOf]
    omega
  simp [Handler.inferTotal, hc, hoff]

/-- Claim C5: in every Find result produced without error, the total is -1 on
a full page (window with positive limit, page length equal to the limit); on
a short page with positive offset it is offset plus page length when the page
is non-empty and stays -1 when the page is empty; and it equals the page
length when no positive offset was requested (window with offset 0, or no
window). -/
theorem C5_total_inference (c hf : Bool) (st : Store) (q : Query)
    (L : ItemList) (hok : Handler.Find c hf st q = .ok L) :
    (∀ w, q.Window = some w → 0 < w.Limit → L.Items.length = w.Limit →
      L.Total = -1) ∧
    (∀ w, q.Window = some w → L.Items.length < w.Limit → 0 < w.Offset →
      0 < L.Items.length → L.Total = (w.Offset : Int) + (L.Items.length : Int)) ∧
    (∀ w, q.Window = some w → L.Items.length < w.Limit → 0 < w.Offset →
      L.Items.length = 0 → L.Total = -1) ∧
    (∀ w, q.Window = some w → L.Items.length < w.Limit → w.Offset = 0 →
      L.Total = (L.Items.length : Int)) ∧
    (q.Window = none → L.Total = (L.Items.length : Int)) := by
  unfold Handler.Find at hok
  split at hok
  next w0 hw =>
    split at hok
    next hl =>
      split at hok
      next n e heq => exact absurd hok (by simp)
      next n heq =>
        simp only [Except.ok.injEq] at hok
        subst hok
        refine ⟨?_, ?_, ?_, ?_, ?_⟩
        · intro w hww hpos _
          rw [hw] at hww
          injection hww with hww
          subst hww
          omega
        · intro w hww hlt _ _
          rw [hw] at hww
          injection hww with hww
          subst hww
          simp at hlt
          omega
        · intro w hww hlt _ _
          rw [hw] at hww
          injection hww with hww
          subst hww
          simp at hlt
          omega
        · intro w hww hlt _
          rw [hw] at hww
          injection hww with hww
          subst hww
          simp at hlt
          omega
        · intro hww
          rw [hw] at hww
          exact absurd hww (by simp)
    next hl =>
      have h2 := findMain_ok_inv c hf st q L hok
      rw [hw] at h2
      refine ⟨?_, ?_, ?_, ?_, ?_⟩
      · intro w hww hpos hlen
        rw [hw] at hww
        injection hww with hww
        subst hww
        rw [h2.1]
        exact inferTotal_full w0 L.Items.length hlen hpos
      · intro w hww hlt hoff hpos
        rw [hw] at hww
        injection hww with hww
        subst hww
        rw [h2.1]
        exact inferTotal_short_off w0 L.Items.length hlt hoff hpos
      · intro w hww hlt hoff hlen
        rw [hw] at hww
        injection hww with hww
        subst hww
        rw [h2.1, hlen]
        exact inferTotal_short_empty w0 (by omega) hoff
      · intro w hww hlt hoff
        rw [hw] at hww
        injection hww with hww
        subst hww
        rw [h2.1]
        exact inferTotal_short_nooff w0 L.Items.length hlt hoff
      · intro hww
        rw [hw] at hww
        exact absurd hww (by simp)
  next hw =>
    have h2 := findMain_ok_inv c hf st q L hok
    rw [hw] at h2
    refine ⟨?_, ?_, ?_, ?_, ?_⟩ <;>
      first
        | (intro w hww
           rw [hw] at hww
           exact absurd hww (by simp))
        | (intro _
           rw [h2.1]
           exact inferTotal_none _)

/-- Claim C8: a Find whose window has limit 0 skips the main read path,
issues only a Count, and returns zero items with the unconstrained matching
count as total and 0 as effective limit. -/
theorem C8_limit_zero (c : Bool) (st : Store) (q : Query) (w : Window)
    (hw : q.Window = some w) (h0 : w.Limit = 0) (hv : q.valid = true) :
    Handler.Find c false st q =
      .ok { Total := ((st.filter q.pred).length : Int), Limit := 0, Items := [] } := by
  unfold Handler.Find
  rw [hw]
  simp [h0, Handler.Count, getQuery, hv]

/-- Claim C10: in every Find result produced without error on the main read
path, the recorded limit is -1 when the query has no window and the window
limit when a window with nonzero limit was requested. -/
theorem C10_limit_field (c hf : Bool) (st : Store) (q : Query) (L : ItemList)
    (hok : Handler.Find c hf st q = .ok L) :
    (q.Window = none → L.Limit = -1) ∧
    (∀ w, q.Window = some w → w.Limit ≠ 0 → L.Limit = (w.Limit : Int)) := by
  unfold Handler.Find at hok
  split at hok
  next w0 hw =>
    split at hok
    next hl =>
      split at hok
      next n e heq => exact absurd hok (by simp)
      next n heq =>
        simp only [Except.ok.injEq] at hok
        subst hok
        refine ⟨?_, ?_⟩
        · intro hww
          rw [hw] at hww
          exact absurd hww (by simp)
        · intro w hww hnz
          rw [hw] at hww
          injection hww with hww
          subst hww
          exact absurd hl hnz
    next hl =>
      have h2 := findMain_ok_inv c hf st q L hok
      rw [hw] at h2
      refine ⟨?_, ?_⟩
      · intro hww
        rw [hw] at hww
        exact absurd hww (by simp)
      · intro w hww _
        rw [hw] at hww
        injection hww with hww
        subst hww
        rw [h2.2]
        rfl
  next hw =>
    have h2 := findMain_ok_inv c hf st q L hok
    rw [hw] at h2
    refine ⟨?_, ?_⟩
    · intro _
      rw [h2.2]
      rfl
    · intro w hww
      rw [hw] at hww
      exact absurd hww (by simp)

/-- Claim C6: a Clear whose query carries a window removes exactly the
documents whose identifier is in the identifier list produced by the
filtered, sorted, windowed pre-read, returns that removal count with no
error, and (when the store identifiers are distinct) never removes more than
the window limit. -/
theorem C6_clear_window (st : Store) (q : Query) (w : Window)
    (hw : q.Window = some w) (hv : q.valid = true) :
    ((Handler.Clear false false st q).1 =
      st.filter fun d =>
        !(decide (d.ID ∈ (storeFind st q.pred q.key q.Window).map StoredDoc.ID))) ∧
    ((Handler.Clear false false st q).2 =
      ((st.filter fun d =>
        decide (d.ID ∈ (storeFind st q.pred q.key q.Window).map StoredDoc.ID)).length,
        none)) ∧
    ((st.map StoredDoc.ID).Nodup → (Handler.Clear false false st q).2.1 ≤ w.Limit) := by
  have hcl : Handler.Clear false false st q =
      (st.filter fun d =>
        !(decide (d.ID ∈ (storeFind st q.pred q.key q.Window).map StoredDoc.ID)),
       ((st.filter fun d =>
        decide (d.ID ∈ (storeFind st q.pred q.key q.Window).map StoredDoc.ID)).length,
        none)) := by
    unfold Handler.Clear
    rw [show getQuery q = .ok q.pred from by simp [getQuery, hv]]
    rw [hw]
    simp [Handler.clearFinish, ctxErr]
  refine ⟨by rw [hcl], by rw [hcl], ?_⟩
  intro hnd
  rw [hcl]
  set ids := (storeFind st q.pred q.key q.Window).map StoredDoc.ID with hid
  set removed := st.filter fun d => decide (d.ID ∈ ids) with hrem
  have hsub : removed.map StoredDoc.ID ⊆ ids := by
    intro x hx
    simp only [List.mem_map] at hx
    obtain ⟨d, hd, rfl⟩ := hx
    have hmem := (List.mem_filter.mp hd).2
    exact of_decide_eq_true hmem
  have hndr : (removed.map StoredDoc.ID).Nodup := by
    have hsl : List.Sublist (removed.map StoredDoc.ID) (st.map StoredDoc.ID) :=
      List.Sublist.map StoredDoc.ID (List.filter_sublist st)
    exact hnd.sublist hsl
  have hlen1 : removed.length ≤ ids.length := by
    have := (List.subperm_of_subset hndr hsub).length_le
    simpa using this
  have hlen2 : ids.length ≤ w.Limit := by
    rw [hid, hw]
    simp only [storeFind, applyWindowL, List.length_map]
    exact (List.length_take_le _ _)
  show removed.length ≤ w.Limit
  omega

/-- Witness for C5 at a concrete input: ten matching documents, window
offset 8 and limit 5; the page is short (2 items) and the total is inferred
as 8 + 2 = 10. -/
theorem C5_witness :
    (findVal false false st10 q85).Items.length = 2 ∧
    (findVal false false st10 q85).Total = 10 := by
  have hok : Handler.Find false false st10 q85 = .ok (findVal false false st10 q85) := rfl
  have h := (C5_total_inference false false st10 q85
    (findVal false false st10 q85) hok).2.1 ⟨8, 5⟩ rfl (by decide) (by decide) (by decide)
  have hlen : (findVal false false st10 q85).Items.length = 2 := by decide
  refine ⟨hlen, ?_⟩
  rw [h, hlen]
  decide

/-- Witness for C6 at a concrete input: Clear with window offset 2, limit 3
over ten matching documents removes exactly the three documents at positions
2 to 4 of the sort order, returning count 3 and no error. -/
theorem C6_witness :
    (Handler.Clear false false st10 q23).2 = (3, none) ∧
    (Handler.Clear false false st10 q23).1.map StoredDoc.ID =
      [.intv 0, .intv 1, .intv 5, .intv 6, .intv 7, .intv 8, .intv 9] := by
  have h := C6_clear_window st10 q23 ⟨2, 3⟩ rfl rfl
  refine ⟨?_, ?_⟩
  · rw [h.2.1]
    decide
  · rw [h.1]
    decide

/-- Witness for C8 at a concrete input: Find with window limit 0 over a
two-document store returns zero items and total 2. -/
theorem C8_witness :
    Handler.Find false false [docB, docB2] qL0 =
      .ok { Total := 2, Limit := 0, Items := [] } := by
  rw [C8_limit_zero false [docB, docB2] qL0 ⟨5, 0⟩ rfl rfl rfl]
  rfl

/-- Witness for C10 at concrete inputs: no window records limit -1; a window
with limit 4 records limit 4. -/
theorem C10_witness :
    (findVal false false [docB, docB2] qAll).Limit = -1 ∧
    (findVal false false [docB, docB2] q04).Limit = 4 := by
  have h1 := (C10_limit_field false false [docB, docB2] qAll
    (findVal false false [docB, docB2] qAll) rfl).1 rfl
  have h2 := (C10_limit_field false false [docB, docB2] q04
    (findVal false false [docB, docB2] q04) rfl).2 ⟨0, 4⟩ rfl (by decide)
  exact ⟨h1, by rw [h2]; decide⟩
